import Mathlib

/-!
Verification of the pfsys proof-system bridge (src/pfsys/mod.rs) of the ezkl
repository: a shallow embedding of its data model and operations, followed by
theorems about the quantization/packing instance builder, the proof artifact
(Snark) persistence, witness stripping, the proof-generation engine, and the
key persistence helpers.  External collaborators (the halo2 proving library,
the quantization and packing primitives, the model compiler) are modelled from
the specification, as noted on each definition.
-/

set_option maxHeartbeats 1000000

namespace Ezkl

/-- Little-endian base-256 digits of a natural number, padded to a fixed width
`k`; the fixed-width raw-byte layout used for field-element encodings. -/
def toLeBytes : Nat → Nat → List Nat
  | 0, _ => []
  | k + 1, n => n % 256 :: toLeBytes k (n / 256)

/-- Reassemble a natural number from little-endian base-256 digits. -/
def fromLeBytes : List Nat → Nat
  | [] => 0
  | b :: bs => b + 256 * fromLeBytes bs

theorem fromLeBytes_toLeBytes (k : Nat) :
    ∀ n : Nat, n < 256 ^ k → fromLeBytes (toLeBytes k n) = n := by
  induction k with
  | zero =>
    intro n h
    simp only [pow_zero, Nat.lt_one_iff] at h
    simp [toLeBytes, fromLeBytes, h]
  | succ k ih =>
    intro n h
    have hdiv : n / 256 < 256 ^ k := by
      rw [Nat.div_lt_iff_lt_mul (by norm_num : (0:ℕ) < 256)]
      calc n < 256 ^ (k + 1) := h
        _ = 256 ^ k * 256 := by rw [pow_succ]
    simp only [toLeBytes, fromLeBytes]
    rw [ih (n / 256) hdiv]
    omega

/-- Modelled from the spec: the canonical fixed-width (32-byte) raw-byte
encoding of a field element, the external halo2curves SerdeObject
to_raw_bytes consumed by Snark::save. -/
def feltToRawBytes {p : Nat} (x : ZMod p) : List Nat := toLeBytes 32 x.val

/-- Modelled from the spec: unchecked decoding of raw bytes back into a field
element, the external halo2curves from_raw_bytes_unchecked consumed by
Snark::load; no canonicity check is performed. -/
def feltFromRawBytesUnchecked (p : Nat) (bs : List Nat) : ZMod p :=
  (fromLeBytes bs : ZMod p)

theorem felt_roundtrip {p : Nat} (hp : 0 < p) (hple : p ≤ 2 ^ 256) (x : ZMod p) :
    feltFromRawBytesUnchecked p (feltToRawBytes x) = x := by
  haveI : NeZero p := ⟨hp.ne'⟩
  have h2 : (256 : ℕ) ^ 32 = 2 ^ 256 := by norm_num
  have hval : x.val < 256 ^ 32 := by
    rw [h2]
    exact lt_of_lt_of_le (ZMod.val_lt x) hple
  unfold feltFromRawBytesUnchecked feltToRawBytes
  rw [fromLeBytes_toLeBytes 32 x.val hval]
  exact ZMod.natCast_zmod_val x

/-- Modelled from the spec: the external quantization primitive
(vector_to_quantized from the graph utilities of this repository, not under
src): each float is mapped to a fixed-point integer at scale 2 ^ scale with
zero point 0; floats are modelled as rationals.  The shape argument of the
source only shapes the result tensor and is dropped here (the caller passes
the flat length). -/
def vector_to_quantized (v : List ℚ) (scale : Nat) : List ℤ :=
  v.map (fun x => round (x * (2 : ℚ) ^ scale))

theorem vector_to_quantized_length (v : List ℚ) (scale : Nat) :
    (vector_to_quantized v scale).length = v.length := by
  simp [vector_to_quantized]

/-- Modelled from the spec: the external packing primitive (pack from the
tensor ops of this repository, not under src): positional mixed-radix
composition of the quantized values at the given base, element i weighted by
base ^ ((scale + 1) * i), producing a single packed integer (so the largest
exponent used is (len - 1) * (scale + 1)). -/
def pack (t : List ℤ) (base : ℤ) (scale : Nat) : List ℤ :=
  [(t.enum.map (fun ix => ix.2 * base ^ ((scale + 1) * ix.1))).sum]

/-- Modelled from the spec: the modular (two's-complement style) mapping of a
signed 128-bit integer into the scalar field (i128_to_felt from the fieldutils
of this repository, not under src). -/
def i128_to_felt (p : Nat) (x : ℤ) : ZMod p := (x : ZMod p)

/-- Errors related to pfsys (src/pfsys/mod.rs, PfSysError): the packing
exponent is too large. -/
inductive PfSysError where
  | PackingExponent
deriving DecidableEq

/-- The run arguments consumed by this module (RunArgs from the commands
module of this repository, not under src): the global input scale and the
packing base. -/
structure RunArgs where
  scale : Nat
  pack_base : Nat
deriving DecidableEq

/-- The input tensor data and shape, and output data for the computational
graph as floats (src/pfsys/mod.rs, ModelInput); floats modelled as
rationals. -/
structure ModelInput where
  input_data : List (List ℚ)
  input_shapes : List (List Nat)
  output_data : List (List ℚ)

/-- The model circuit holding the quantized inputs (ModelCircuit from the
graph module of this repository, not under src; tensors modelled as flat
lists). -/
structure ModelCircuit where
  inputs : List (List ℤ)
deriving DecidableEq

/-- The largest signed 128-bit integer, i128::MAX. -/
def i128MaxNat : Nat := 2 ^ 127 - 1

/-- The value of the cast i128::MAX as f64: the nearest f64 to 2 ^ 127 - 1
(whose distance to 2 ^ 127 is far below the ulp 2 ^ 74 there) is exactly
2 ^ 127, so the cast rounds up. -/
def i128MaxAsF64Nat : Nat := 2 ^ 127

/-- Processing of one public output group inside
prepare_model_circuit_and_public_input (src/pfsys/mod.rs lines 215-226):
quantize at the output's own scale; when packing is enabled (pack_base > 1),
guard on the largest packing exponent (len - 1) * (args.scale + 1) and then
pack at the global scale.  The source computes the guard in f64 as
max_exponent > (i128::MAX as f64).log(pack_base as f64); the cast rounds
i128::MAX up to 2 ^ 127, so the guard compares the integer exponent e against
log base pack_base of 2 ^ 127, which for an integer e and a base b > 1 holds
iff b ^ e > 2 ^ 127 — the form embedded here.  (At base 2 the f64 division
ln(2 ^ 127) / ln 2 lands on exactly 127.0, so the boundary e = 127 passes the
guard; for the other u32 bases the exact log is far enough from every integer
that the f64 rounding cannot flip the comparison.) -/
def processOutputGroup (args : RunArgs) (outScale : Nat) (v : List ℚ) :
    Except PfSysError (List ℤ) :=
  let t := vector_to_quantized v outScale
  let len := t.length
  if 1 < args.pack_base then
    if i128MaxAsF64Nat < args.pack_base ^ ((len - 1) * (args.scale + 1)) then
      Except.error PfSysError.PackingExponent
    else
      Except.ok (pack t (args.pack_base : ℤ) args.scale)
  else
    Except.ok t

/-- The output loop of prepare_model_circuit_and_public_input: the public
output vector at index idx is processed with its own scale out_scales[idx]
(the source indexes out_scales and would panic out of bounds; the theorems
below carry the in-bounds hypothesis); the first failure aborts the loop. -/
def processOutputs (args : RunArgs) (outScales : List Nat) :
    List (List ℚ) → Nat → Except PfSysError (List (List ℤ))
  | [], _ => Except.ok []
  | v :: rest, idx => do
    let t ← processOutputGroup args (outScales.getD idx 0) v
    let ts ← processOutputs args outScales rest (idx + 1)
    Except.ok (t :: ts)

/-- Initialize the model circuit (src/pfsys/mod.rs, prepare_model_circuit):
quantize every input at the global scale. -/
def prepare_model_circuit (args : RunArgs) (data : ModelInput) : ModelCircuit :=
  ⟨data.input_data.map (fun v => vector_to_quantized v args.scale)⟩

/-- Initialize the model circuit and quantize the provided float inputs
(src/pfsys/mod.rs, prepare_model_circuit_and_public_input).  The external
model configuration is abstracted into the visibility flags, the per-output
scales and the run arguments (the source reads them from
Model::from_ezkl_conf(cli), whose run_args equal cli.args, so
model.run_args.scale = cli.args.scale).  Public input groups come first, in
input order, then public output groups, in output order; finally every
quantized integer is lifted into the field. -/
def prepare_model_circuit_and_public_input (p : Nat)
    (inputPublic outputPublic : Bool) (outScales : List Nat) (args : RunArgs)
    (data : ModelInput) :
    Except PfSysError (ModelCircuit × List (List (ZMod p))) := do
  let circuit := prepare_model_circuit args data
  let inputGroups : List (List ℤ) :=
    if inputPublic then
      data.input_data.map (fun v => vector_to_quantized v args.scale)
    else []
  let outputGroups ←
    if outputPublic then processOutputs args outScales data.output_data 0
    else Except.ok []
  Except.ok
    (circuit, (inputGroups ++ outputGroups).map (fun g => g.map (i128_to_felt p)))

variable {F Pp Vk : Type}

/-- Modelled from the spec: the protocol description compiled by the external
snark-verifier library (PlonkProtocol) from the commitment parameters, a
verifying key and the per-group instance element counts; treated as an opaque
record of the inputs of compile. -/
structure PlonkProtocol (Pp Vk : Type) where
  params : Pp
  vk : Vk
  num_instance : List Nat
deriving DecidableEq

/-- Modelled from the spec: the external snark-verifier compile applied to
Config::kzg().with_num_instance(num_instance). -/
def compile (params : Pp) (vk : Vk) (num_instance : List Nat) :
    PlonkProtocol Pp Vk :=
  ⟨params, vk, num_instance⟩

/-- The on-disk proof artifact (src/pfsys/mod.rs, Snarkbytes): per-group
element counts, instances as nested byte sequences, raw proof bytes.  The
JSON text produced by serde_json is modelled by the record itself (the
serde_json string round-trip is an external primitive). -/
structure Snarkbytes where
  num_instance : List Nat
  instances : List (List (List Nat))
  proof : List Nat
deriving DecidableEq

/-- An application snark with proof and instance variables (src/pfsys/mod.rs,
Snark), generic over the scalar type F as the source is over its field. -/
structure Snark (F Pp Vk : Type) where
  protocol : Option (PlonkProtocol Pp Vk)
  instances : List (List F)
  proof : List Nat
deriving DecidableEq

/-- Create a new application snark from proof and instance variables
(src/pfsys/mod.rs, Snark::new). -/
def Snark.new (protocol : PlonkProtocol Pp Vk) (instances : List (List F))
    (proof : List Nat) : Snark F Pp Vk :=
  ⟨some protocol, instances, proof⟩

/-- Saves the proof (src/pfsys/mod.rs, Snark::save): reads the per-group
counts through an unconditional unwrap of the optional protocol (none here
models the panic of unwrap on a protocol-less artifact), encodes every
instance element with its raw-byte encoding and serializes the record (the
file write and serde_json serialization are external; the file content is the
returned record). -/
def Snark.save {p : Nat} (s : Snark (ZMod p) Pp Vk) : Option Snarkbytes :=
  s.protocol.map (fun proto =>
    ⟨proto.num_instance,
     s.instances.map (fun group => group.map feltToRawBytes),
     s.proof⟩)

/-- Load a serialized proof (src/pfsys/mod.rs, Snark::load): every stored
byte sequence is decoded back with the unchecked decoder; when either the
parameters or the verifying key is absent the artifact is protocol-less,
otherwise the protocol is recompiled from them and the recorded per-group
counts. -/
def Snark.load (p : Nat) (bytes : Snarkbytes) (params : Option Pp)
    (vk : Option Vk) : Snark (ZMod p) Pp Vk :=
  let instances :=
    bytes.instances.map (fun group => group.map (feltFromRawBytesUnchecked p))
  match params, vk with
  | some pp, some vkey =>
      ⟨some (compile pp vkey bytes.num_instance), instances, bytes.proof⟩
  | _, _ => ⟨none, instances, bytes.proof⟩

/-- Modelled from the spec: halo2's Value, a possibly not-yet-assigned circuit
value (known or unknown). -/
inductive Value (α : Type) where
  | known : α → Value α
  | unknown : Value α
deriving DecidableEq

/-- An application snark with proof and instance variables as wrapped circuit
values (src/pfsys/mod.rs, SnarkWitness). -/
structure SnarkWitness (F Pp Vk : Type) where
  protocol : Option (PlonkProtocol Pp Vk)
  instances : List (List (Value F))
  proof : Value (List Nat)
deriving DecidableEq

/-- Strip the witnesses (src/pfsys/mod.rs, SnarkWitness::without_witnesses):
keep the protocol, replace every instance group by unknowns of the same
length, replace the proof by unknown. -/
def SnarkWitness.without_witnesses (w : SnarkWitness F Pp Vk) :
    SnarkWitness F Pp Vk :=
  ⟨w.protocol,
   w.instances.map (fun group => List.replicate group.length Value.unknown),
   Value.unknown⟩

/-- Conversion of a Snark into a SnarkWitness (src/pfsys/mod.rs, the From
Snark for SnarkWitness impl): wrap every instance element and the proof as
known circuit values. -/
def Snark.toWitness (s : Snark F Pp Vk) : SnarkWitness F Pp Vk :=
  ⟨s.protocol,
   s.instances.map (fun group => group.map Value.known),
   Value.known s.proof⟩

/-- Modelled from the spec: the two-valued CheckMode (SAFE / fast) of the
circuit module of this repository, not under src. -/
inductive CheckMode where
  | SAFE
  | UNSAFE
deriving DecidableEq

/-- The stages of create_proof_circuit that invoke the external proving
library, in the order they are performed; used to express which stages a call
reaches. -/
inductive Stage where
  | mockCheck
  | prove
  | selfVerify
deriving DecidableEq

/-- The error surface of create_proof_circuit (a boxed dyn Error in the
source): either an underlying proving-library error propagated unchanged (the
mock-prover construction, create_proof and verify_proof paths all box the
same halo2 error type), or a mock-check constraint violation wrapped in
ExecutionError::VerifyError (the execute module of this repository, not under
src). -/
inductive ProofError (PErr VErr : Type) where
  | lib : PErr → ProofError PErr VErr
  | verifyError : VErr → ProofError PErr VErr
deriving DecidableEq

variable {Cir Pv Pk MP PErr VErr St Out : Type}

/-- Modelled from the spec: the external halo2 proving/verification library
(create_proof, verify_proof, MockProver, params and keys), abstracted as a
record of its operations; the operating-system randomness consumed once by
create_proof is folded into createProofBytes. -/
structure Halo2Backend (Cir F Pp Pv Pk Vk MP PErr VErr St Out : Type) where
  paramsK : Pp → Nat
  verifierParams : Pp → Pv
  getVk : Pk → Vk
  mockRun : Nat → Cir → List (List F) → Except PErr MP
  mockVerify : MP → Except VErr Unit
  createProofBytes : Pp → Pk → Cir → List (List F) → Except PErr (List Nat)
  verifyProofBytes : Pv → Vk → St → List (List F) → List Nat → Except PErr Out

/-- A wrapper around halo2's verify_proof (src/pfsys/mod.rs,
verify_proof_circuit): replay the artifact's proof bytes against its flattened
instance groups under the given strategy (the artifact's protocol field is not
consulted). -/
def verify_proof_circuit (B : Halo2Backend Cir F Pp Pv Pk Vk MP PErr VErr St Out)
    (snark : Snark F Pp Vk) (params : Pv) (vk : Vk) (strategy : St) :
    Except PErr Out :=
  B.verifyProofBytes params vk strategy snark.instances snark.proof

/-- A wrapper around halo2's create_proof (src/pfsys/mod.rs,
create_proof_circuit).  Sequential effects are made explicit: the result is
paired with the ordered list of library stages the call performed.  Under
CheckMode.SAFE the mock prover runs first (a run failure is propagated boxed,
a verify failure is wrapped in ExecutionError::VerifyError) and the freshly
assembled artifact is verified against the verifier-side parameters before it
is returned; under any other mode both checks are skipped. -/
def create_proof_circuit (B : Halo2Backend Cir F Pp Pv Pk Vk MP PErr VErr St Out)
    (circuit : Cir) (instances : List (List F)) (params : Pp) (pk : Pk)
    (strategy : St) (check_mode : CheckMode) :
    Except (ProofError PErr VErr) (Snark F Pp Vk) × List Stage :=
  let afterMock : Except (ProofError PErr VErr) Unit × List Stage :=
    if check_mode = CheckMode.SAFE then
      match B.mockRun (B.paramsK params) circuit instances with
      | Except.error e => (Except.error (ProofError.lib e), [Stage.mockCheck])
      | Except.ok prover =>
        match B.mockVerify prover with
        | Except.error e =>
            (Except.error (ProofError.verifyError e), [Stage.mockCheck])
        | Except.ok _ => (Except.ok (), [Stage.mockCheck])
    else (Except.ok (), [])
  match afterMock with
  | (Except.error e, tr) => (Except.error e, tr)
  | (Except.ok _, tr) =>
    let number_instance := instances.map List.length
    let protocol := compile params (B.getVk pk) number_instance
    match B.createProofBytes params pk circuit instances with
    | Except.error e => (Except.error (ProofError.lib e), tr ++ [Stage.prove])
    | Except.ok proof =>
      let checkable_pf : Snark F Pp Vk := Snark.new protocol instances proof
      if check_mode = CheckMode.SAFE then
        match verify_proof_circuit B checkable_pf (B.verifierParams params)
            (B.getVk pk) strategy with
        | Except.error e =>
            (Except.error (ProofError.lib e),
             tr ++ [Stage.prove, Stage.selfVerify])
        | Except.ok _ =>
            (Except.ok checkable_pf, tr ++ [Stage.prove, Stage.selfVerify])
      else (Except.ok checkable_pf, tr ++ [Stage.prove])

/-- A buffered file writer (std BufWriter over a freshly created file):
writes go to the buffer, flush moves the buffer into the file. -/
structure BufWriter where
  buffer : List Nat
  file : List Nat
deriving DecidableEq

/-- File::create produces an empty file wrapped in an empty buffer. -/
def BufWriter.new : BufWriter := ⟨[], []⟩

/-- Append bytes to the writer's buffer. -/
def BufWriter.writeAll (w : BufWriter) (bs : List Nat) : BufWriter :=
  ⟨w.buffer ++ bs, w.file⟩

/-- Flush the buffer into the underlying file. -/
def BufWriter.flush (w : BufWriter) : BufWriter :=
  ⟨[], w.file ++ w.buffer⟩

/-- Saves a verifying key (src/pfsys/mod.rs, save_vk): create the file, write
the key's raw-byte encoding through the buffered writer, flush, return
success; the final writer state models the on-disk outcome.  The raw-byte
codec enc is the external halo2 VerifyingKey::write (SerdeFormat::RawBytes),
modelled from the spec as a parameter. -/
def save_vk (enc : Vk → List Nat) (vk : Vk) : BufWriter :=
  (BufWriter.new.writeAll (enc vk)).flush

/-- Loads a verifying key (src/pfsys/mod.rs, load_vk): decode the file's
bytes with the external halo2 VerifyingKey::read (SerdeFormat::RawBytes),
modelled from the spec as the parameter dec; a decode failure is surfaced as
an error. -/
def load_vk (dec : List Nat → Except Unit Vk) (file : List Nat) :
    Except Unit Vk :=
  dec file

/-- Saves a proving key (src/pfsys/mod.rs, save_pk); identical shape to
save_vk, with the proving-key raw-byte codec. -/
def save_pk {PkT : Type} (enc : PkT → List Nat) (pk : PkT) : BufWriter :=
  (BufWriter.new.writeAll (enc pk)).flush

/-- Loads a proving key (src/pfsys/mod.rs, load_pk). -/
def load_pk {PkT : Type} (dec : List Nat → Except Unit PkT) (file : List Nat) :
    Except Unit PkT :=
  dec file

/-!  Helper lemmas shared by the claim theorems. -/

theorem processOutputGroup_eq (args : RunArgs) (outScale : Nat) (v : List ℚ)
    (hb : 1 < args.pack_base) :
    processOutputGroup args outScale v =
      if i128MaxAsF64Nat < args.pack_base ^ ((v.length - 1) * (args.scale + 1)) then
        Except.error PfSysError.PackingExponent
      else
        Except.ok (pack (vector_to_quantized v outScale) (args.pack_base : ℤ)
          args.scale) := by
  simp only [processOutputGroup, vector_to_quantized_length, if_pos hb]

theorem processOutputs_ok_length (args : RunArgs) (outScales : List Nat) :
    ∀ (l : List (List ℚ)) (idx : Nat) (ts : List (List ℤ)),
      processOutputs args outScales l idx = Except.ok ts → ts.length = l.length := by
  intro l
  induction l with
  | nil =>
    intro idx ts h
    simp only [processOutputs] at h
    cases h
    rfl
  | cons v rest ih =>
    intro idx ts h
    simp only [processOutputs] at h
    cases hg : processOutputGroup args (outScales.getD idx 0) v with
    | error e => rw [hg] at h; simp [Bind.bind, Except.bind] at h
    | ok t =>
      rw [hg] at h
      cases hr : processOutputs args outScales rest (idx + 1) with
      | error e => rw [hr] at h; simp [Bind.bind, Except.bind] at h
      | ok ts2 =>
        rw [hr] at h
        simp only [Bind.bind, Except.bind] at h
        cases h
        simp [ih (idx + 1) ts2 hr]

/-- C1 failing input: at pack_base 2, global scale 0 and a public output
vector of length 128, the claimed guard condition holds — the largest packing
exponent (128 - 1) * (0 + 1) = 127 exceeds the base-2 logarithm of i128::MAX
(Nat.log 2 i128::MAX = 126) — so the claim requires the PackingExponent
error; yet the program's guard, comparing against the rounded-up value
i128::MAX as f64 = 2 ^ 127, passes the input on and attempts the pack, whose
largest positional weight 2 ^ 127 itself exceeds i128::MAX — exactly the
silent i128 overflow the guard exists to prevent. -/
theorem packing_guard_boundary_miss (v : List ℚ) (hv : v.length = 128) :
    processOutputGroup ⟨0, 2⟩ 0 v =
      Except.ok (pack (vector_to_quantized v 0) ((2 : ℕ) : ℤ) 0) ∧
    Nat.log 2 i128MaxNat < (v.length - 1) * (0 + 1) ∧
    i128MaxNat < 2 ^ ((0 + 1) * (v.length - 1)) := by
  refine ⟨?_, ?_, ?_⟩
  · rw [processOutputGroup_eq ⟨0, 2⟩ 0 v (by norm_num), hv]
    rw [if_neg (by norm_num [i128MaxAsF64Nat])]
  · rw [hv]
    have hlt : i128MaxNat < 2 ^ 127 := by norm_num [i128MaxNat]
    have hlog := (Nat.lt_pow_iff_log_lt (by norm_num : 1 < 2)
        (by norm_num [i128MaxNat] : i128MaxNat ≠ 0)).mp hlt
    simpa using hlog
  · rw [hv]
    norm_num [i128MaxNat]

/-- Witness for packing_guard_boundary_miss at the concrete failing input:
128 ones. -/
theorem packing_guard_boundary_miss_witness :
    (List.replicate 128 (1 : ℚ)).length = 128 ∧
    processOutputGroup ⟨0, 2⟩ 0 (List.replicate 128 (1 : ℚ)) =
      Except.ok (pack (vector_to_quantized (List.replicate 128 (1 : ℚ)) 0)
        ((2 : ℕ) : ℤ) 0) :=
  ⟨by simp,
    (packing_guard_boundary_miss (List.replicate 128 (1 : ℚ)) (by simp)).1⟩

/-- C7: a public output group is quantized at the output's own scale, while
the packing-overflow guard and the pack call itself use the global input
scale of the run arguments: the success value packs the outScale-quantized
values at args.scale, and whether the guard trips does not depend on the
output's own scale at all. -/
theorem output_group_scale_usage (args : RunArgs) (outScale : Nat) (v : List ℚ)
    (hb : 1 < args.pack_base)
    (hok : ¬ i128MaxNat < args.pack_base ^ ((v.length - 1) * (args.scale + 1))) :
    processOutputGroup args outScale v =
      Except.ok (pack (vector_to_quantized v outScale) (args.pack_base : ℤ)
        args.scale) ∧
    (∀ s1 s2 : Nat,
        (processOutputGroup args s1 v = Except.error PfSysError.PackingExponent) ↔
        (processOutputGroup args s2 v = Except.error PfSysError.PackingExponent)) := by
  have hok2 : ¬ i128MaxAsF64Nat <
      args.pack_base ^ ((v.length - 1) * (args.scale + 1)) := by
    intro hlt
    apply hok
    have hmm : i128MaxNat < i128MaxAsF64Nat := by
      norm_num [i128MaxNat, i128MaxAsF64Nat]
    omega
  constructor
  · rw [processOutputGroup_eq args outScale v hb, if_neg hok2]
  · intro s1 s2
    rw [processOutputGroup_eq args s1 v hb, processOutputGroup_eq args s2 v hb]
    by_cases hg : i128MaxAsF64Nat <
        args.pack_base ^ ((v.length - 1) * (args.scale + 1))
    · simp [hg]
    · simp [hg]

/-- Witness for output_group_scale_usage at a concrete input. -/
theorem output_group_scale_usage_witness :
    1 < (2 : Nat) ∧
    processOutputGroup ⟨0, 2⟩ 3 [(1 : ℚ)] =
      Except.ok (pack (vector_to_quantized [(1 : ℚ)] 3) (2 : ℤ) 0) :=
  ⟨by decide,
    (output_group_scale_usage ⟨0, 2⟩ 3 [(1 : ℚ)] (by decide) (by decide)).1⟩

/-- C3: with both visibilities public, the instance groups are exactly one
group per public input in input order followed by one group per public output
in output order, nothing else; a private visibility omits the corresponding
groups entirely. -/
theorem prepare_public_instance_order (p : Nat) (outScales : List Nat)
    (args : RunArgs) (data : ModelInput) (outGs : List (List ℤ))
    (hop : processOutputs args outScales data.output_data 0 = Except.ok outGs) :
    (prepare_model_circuit_and_public_input p true true outScales args data =
        Except.ok (prepare_model_circuit args data,
          data.input_data.map
              (fun v => (vector_to_quantized v args.scale).map (i128_to_felt p)) ++
            outGs.map (fun g => g.map (i128_to_felt p)))) ∧
    outGs.length = data.output_data.length ∧
    (prepare_model_circuit_and_public_input p false true outScales args data =
        Except.ok (prepare_model_circuit args data,
          outGs.map (fun g => g.map (i128_to_felt p)))) ∧
    (prepare_model_circuit_and_public_input p true false outScales args data =
        Except.ok (prepare_model_circuit args data,
          data.input_data.map
              (fun v => (vector_to_quantized v args.scale).map (i128_to_felt p)))) ∧
    (prepare_model_circuit_and_public_input p false false outScales args data =
        Except.ok (prepare_model_circuit args data, ([] : List (List (ZMod p))))) := by
  refine ⟨?_, processOutputs_ok_length args outScales data.output_data 0 outGs hop,
    ?_, ?_, ?_⟩
  · simp [prepare_model_circuit_and_public_input, hop, Bind.bind, Except.bind,
      List.map_map, Function.comp]
  · simp [prepare_model_circuit_and_public_input, hop, Bind.bind, Except.bind]
  · simp [prepare_model_circuit_and_public_input, Bind.bind, Except.bind,
      List.map_map, Function.comp]
  · simp [prepare_model_circuit_and_public_input, Bind.bind, Except.bind]

/-- Witness for prepare_public_instance_order at a concrete input. -/
theorem prepare_public_instance_order_witness :
    processOutputs ⟨0, 0⟩ [] ([] : List (List ℚ)) 0 = Except.ok [] ∧
    prepare_model_circuit_and_public_input 5 true true [] ⟨0, 0⟩ ⟨[], [], []⟩ =
      Except.ok (prepare_model_circuit ⟨0, 0⟩ ⟨[], [], []⟩,
        ([] : List (List ℚ)).map
            (fun v => (vector_to_quantized v 0).map (i128_to_felt 5)) ++
          ([] : List (List ℤ)).map (fun g => g.map (i128_to_felt 5))) :=
  ⟨rfl, (prepare_public_instance_order 5 [] ⟨0, 0⟩ ⟨[], [], []⟩ [] rfl).1⟩

theorem decode_encode_group {p : Nat} (hp : 0 < p) (hple : p ≤ 2 ^ 256)
    (g : List (ZMod p)) :
    (g.map feltToRawBytes).map (feltFromRawBytesUnchecked p) = g := by
  rw [List.map_map]
  have h : ∀ x ∈ g, (feltFromRawBytesUnchecked p ∘ feltToRawBytes) x = id x :=
    fun x _ => felt_roundtrip hp hple x
  rw [List.map_congr_left h, List.map_id]

/-- C2: a saved artifact with a protocol description reloads with
byte-for-byte identical instances (group for group, element for element,
through the canonical encoding) and identical proof bytes, on both the
protocol-aware and the protocol-less load path.  The bound on the modulus is
the 32-byte width of the canonical field-element encoding. -/
theorem snark_save_load_roundtrip {Pp Vk : Type} (p : Nat) (hp : 0 < p)
    (hple : p ≤ 2 ^ 256) (s : Snark (ZMod p) Pp Vk)
    (proto : PlonkProtocol Pp Vk) (hs : s.protocol = some proto)
    (pp : Pp) (vkey : Vk) :
    ∃ bytes : Snarkbytes,
      Snark.save s = some bytes ∧
      (Snark.load p bytes (some pp) (some vkey)).instances = s.instances ∧
      (Snark.load p bytes (some pp) (some vkey)).proof = s.proof ∧
      (Snark.load p bytes (none : Option Pp) (none : Option Vk)).instances = s.instances ∧
      (Snark.load p bytes (none : Option Pp) (none : Option Vk)).proof = s.proof := by
  refine ⟨⟨proto.num_instance,
    s.instances.map (fun group => group.map feltToRawBytes), s.proof⟩,
    ?_, ?_, rfl, ?_, rfl⟩
  · simp [Snark.save, hs]
  · simp only [Snark.load, List.map_map]
    have h : ∀ g ∈ s.instances,
        ((fun group => group.map (feltFromRawBytesUnchecked p)) ∘
          (fun group => group.map feltToRawBytes)) g = id g := by
      intro g _
      simp only [Function.comp, id]
      exact decode_encode_group hp hple g
    rw [List.map_congr_left h, List.map_id]
  · simp only [Snark.load, List.map_map]
    have h : ∀ g ∈ s.instances,
        ((fun group => group.map (feltFromRawBytesUnchecked p)) ∘
          (fun group => group.map feltToRawBytes)) g = id g := by
      intro g _
      simp only [Function.comp, id]
      exact decode_encode_group hp hple g
    rw [List.map_congr_left h, List.map_id]

/-- Witness for snark_save_load_roundtrip at a concrete artifact. -/
theorem snark_save_load_roundtrip_witness :
    0 < 5 ∧ 5 ≤ 2 ^ 256 ∧
    (∃ bytes : Snarkbytes,
      Snark.save (⟨some ⟨(), (), [1]⟩, [[(3 : ZMod 5)]], [7]⟩ :
          Snark (ZMod 5) Unit Unit) = some bytes ∧
      (Snark.load 5 bytes (some ()) (some ())).instances = [[(3 : ZMod 5)]] ∧
      (Snark.load 5 bytes (some ()) (some ())).proof = [7] ∧
      (Snark.load 5 bytes (none : Option Unit) (none : Option Unit)).instances
          = [[(3 : ZMod 5)]] ∧
      (Snark.load 5 bytes (none : Option Unit) (none : Option Unit)).proof = [7]) :=
  ⟨by decide, by decide,
    snark_save_load_roundtrip 5 (by decide) (by decide)
      ⟨some ⟨(), (), [1]⟩, [[(3 : ZMod 5)]], [7]⟩ ⟨(), (), [1]⟩ rfl () ()⟩

/-- C4: load recompiles the protocol from the supplied parameters, verifying
key and the recorded per-group counts exactly when both are supplied, returns
a protocol-less artifact when either is absent, and in every case carries the
unchecked-decoded instances and the stored proof bytes. -/
theorem snark_load_protocol_presence {Pp Vk : Type} (p : Nat)
    (bytes : Snarkbytes) (pp : Pp) (vkey : Vk) :
    (Snark.load p bytes (some pp) (some vkey)).protocol =
        some (compile pp vkey bytes.num_instance) ∧
    (∀ vkOpt : Option Vk, (Snark.load p bytes (none : Option Pp) vkOpt).protocol = none) ∧
    (∀ ppOpt : Option Pp, (Snark.load p bytes ppOpt (none : Option Vk)).protocol = none) ∧
    (∀ (ppOpt : Option Pp) (vkOpt : Option Vk),
        (Snark.load p bytes ppOpt vkOpt).instances =
            bytes.instances.map (fun g => g.map (feltFromRawBytesUnchecked p)) ∧
        (Snark.load p bytes ppOpt vkOpt).proof = bytes.proof) := by
  refine ⟨rfl, ?_, ?_, ?_⟩
  · intro vkOpt; cases vkOpt <;> rfl
  · intro ppOpt; cases ppOpt <;> rfl
  · intro ppOpt vkOpt
    cases ppOpt <;> cases vkOpt <;> exact ⟨rfl, rfl⟩

/-- C9: stripping witnesses keeps the protocol and the group/element shape,
replaces every instance element and the proof by unknown, and is one-way: the
stripped form depends only on the protocol and the shape, never on the known
values, so no operation can reconstruct them from it. -/
theorem without_witnesses_spec {F Pp Vk : Type} (w : SnarkWitness F Pp Vk) :
    w.without_witnesses.protocol = w.protocol ∧
    w.without_witnesses.instances =
        w.instances.map
          (fun g => List.replicate g.length (Value.unknown : Value F)) ∧
    w.without_witnesses.proof = Value.unknown ∧
    (∀ w2 : SnarkWitness F Pp Vk, w2.protocol = w.protocol →
        w2.instances.map List.length = w.instances.map List.length →
        w2.without_witnesses = w.without_witnesses) := by
  refine ⟨rfl, rfl, rfl, ?_⟩
  intro w2 hproto hshape
  have key : ∀ l : List (List (Value F)),
      l.map (fun g => List.replicate g.length (Value.unknown : Value F)) =
        (l.map List.length).map
          (fun n => List.replicate n (Value.unknown : Value F)) := by
    intro l
    rw [List.map_map]
    rfl
  simp only [SnarkWitness.without_witnesses, hproto, key, hshape]

/-- Witness for without_witnesses_spec: two witnesses that differ in every
known value but share protocol and shape strip to the same value. -/
theorem without_witnesses_spec_witness :
    (⟨none, [[Value.known 7]], Value.unknown⟩ :
        SnarkWitness Nat Unit Unit).protocol =
      (⟨none, [[Value.known 5]], Value.known [2]⟩ :
        SnarkWitness Nat Unit Unit).protocol ∧
    (⟨none, [[Value.known 7]], Value.unknown⟩ :
        SnarkWitness Nat Unit Unit).instances.map List.length =
      (⟨none, [[Value.known 5]], Value.known [2]⟩ :
        SnarkWitness Nat Unit Unit).instances.map List.length ∧
    (⟨none, [[Value.known 7]], Value.unknown⟩ :
        SnarkWitness Nat Unit Unit).without_witnesses =
      (⟨none, [[Value.known 5]], Value.known [2]⟩ :
        SnarkWitness Nat Unit Unit).without_witnesses :=
  ⟨rfl, rfl,
    (without_witnesses_spec
        (⟨none, [[Value.known 5]], Value.known [2]⟩ :
          SnarkWitness Nat Unit Unit)).2.2.2
      ⟨none, [[Value.known 7]], Value.unknown⟩ rfl rfl⟩

/-- C10: Snark::save reads the per-group counts through an unconditional
unwrap of the optional protocol, so saving a protocol-less artifact — in
particular one returned by Snark::load without parameters or verifying key —
panics (modelled by none) instead of returning a typed error. -/
theorem snark_save_requires_protocol {Pp Vk : Type} (p : Nat)
    (s : Snark (ZMod p) Pp Vk) (hs : s.protocol = none) :
    Snark.save s = none ∧
    (∀ (bytes : Snarkbytes) (vkOpt : Option Vk),
        Snark.save (Snark.load p bytes (none : Option Pp) vkOpt) = none) ∧
    (∀ (bytes : Snarkbytes) (ppOpt : Option Pp),
        Snark.save (Snark.load p bytes ppOpt (none : Option Vk)) = none) := by
  refine ⟨by simp [Snark.save, hs], ?_, ?_⟩
  · intro bytes vkOpt; cases vkOpt <;> rfl
  · intro bytes ppOpt; cases ppOpt <;> rfl

/-- Witness for snark_save_requires_protocol at a concrete protocol-less
artifact. -/
theorem snark_save_requires_protocol_witness :
    Snark.save (⟨none, [], []⟩ : Snark (ZMod 5) Unit Unit) = none ∧
    Snark.save (Snark.load 5 ⟨[1], [[[2]]], [3]⟩ (none : Option Unit) (none : Option Unit)) = none :=
  ⟨(snark_save_requires_protocol 5 ⟨none, [], []⟩ rfl).1,
    (snark_save_requires_protocol 5
        (⟨none, [], []⟩ : Snark (ZMod 5) Unit Unit) rfl).2.1 ⟨[1], [[[2]]], [3]⟩ (none : Option Unit)⟩

/-- C5: under CheckMode.SAFE a constraint violation reported by the mock
executor makes the call fail with the wrapped verification error before the
proving protocol is ever invoked (the performed-stage trace stops at the mock
check); under any other mode the mock check is skipped entirely. -/
theorem create_proof_circuit_safe_mock_gate
    {Cir F Pp Pv Pk Vk MP PErr VErr St Out : Type}
    (B : Halo2Backend Cir F Pp Pv Pk Vk MP PErr VErr St Out)
    (circuit : Cir) (instances : List (List F)) (params : Pp) (pk : Pk)
    (strategy : St) (mp : MP) (ve : VErr)
    (h1 : B.mockRun (B.paramsK params) circuit instances = Except.ok mp)
    (h2 : B.mockVerify mp = Except.error ve) :
    create_proof_circuit B circuit instances params pk strategy CheckMode.SAFE =
        (Except.error (ProofError.verifyError ve), [Stage.mockCheck]) ∧
    Stage.prove ∉
        (create_proof_circuit B circuit instances params pk strategy
          CheckMode.SAFE).2 ∧
    (∀ cm : CheckMode, cm ≠ CheckMode.SAFE →
        Stage.mockCheck ∉
          (create_proof_circuit B circuit instances params pk strategy cm).2) := by
  have hmain :
      create_proof_circuit B circuit instances params pk strategy CheckMode.SAFE =
        (Except.error (ProofError.verifyError ve), [Stage.mockCheck]) := by
    simp [create_proof_circuit, h1, h2]
  refine ⟨hmain, ?_, ?_⟩
  · rw [hmain]
    simp
  · intro cm hcm
    cases cm with
    | SAFE => exact absurd rfl hcm
    | UNSAFE =>
      cases hB : B.createProofBytes params pk circuit instances with
      | error e => simp [create_proof_circuit, hB]
      | ok pf => simp [create_proof_circuit, hB]

/-- A concrete backend whose mock verification reports a constraint
violation. -/
def mockFailBackend :
    Halo2Backend Unit Nat Unit Unit Unit Unit Unit Nat Nat Unit Unit :=
  ⟨fun _ => 0, fun _ => (), fun _ => (),
   fun _ _ _ => Except.ok (), fun _ => Except.error 3,
   fun _ _ _ _ => Except.ok [], fun _ _ _ _ _ => Except.ok ()⟩

/-- Witness for create_proof_circuit_safe_mock_gate at a concrete backend. -/
theorem create_proof_circuit_safe_mock_gate_witness :
    mockFailBackend.mockRun (mockFailBackend.paramsK ()) () [] = Except.ok () ∧
    mockFailBackend.mockVerify () = Except.error 3 ∧
    create_proof_circuit mockFailBackend () [] () () () CheckMode.SAFE =
      (Except.error (ProofError.verifyError 3), [Stage.mockCheck]) :=
  ⟨rfl, rfl,
    (create_proof_circuit_safe_mock_gate mockFailBackend () [] () () () () 3
        rfl rfl).1⟩

/-- C6 (amended): under CheckMode.SAFE every run whose proving call succeeds
verifies the freshly assembled artifact against the verifier-side parameters
and the caller's strategy before returning — a self-verification failure is
surfaced as an error, but as the same propagated library error constructor a
proving failure uses (only the mock-check failure carries a distinct wrapped
kind); the stage trace, not the error kind, tells the two apart. -/
theorem create_proof_circuit_safe_self_verifies
    {Cir F Pp Pv Pk Vk MP PErr VErr St Out : Type}
    (B : Halo2Backend Cir F Pp Pv Pk Vk MP PErr VErr St Out)
    (circuit : Cir) (instances : List (List F)) (params : Pp) (pk : Pk)
    (strategy : St) (mp : MP) (pf : List Nat)
    (h1 : B.mockRun (B.paramsK params) circuit instances = Except.ok mp)
    (h2 : B.mockVerify mp = Except.ok ())
    (h3 : B.createProofBytes params pk circuit instances = Except.ok pf) :
    (∀ e : PErr,
        B.verifyProofBytes (B.verifierParams params) (B.getVk pk) strategy
            instances pf = Except.error e →
        create_proof_circuit B circuit instances params pk strategy
            CheckMode.SAFE =
          (Except.error (ProofError.lib e),
           [Stage.mockCheck, Stage.prove, Stage.selfVerify])) ∧
    (∀ out : Out,
        B.verifyProofBytes (B.verifierParams params) (B.getVk pk) strategy
            instances pf = Except.ok out →
        create_proof_circuit B circuit instances params pk strategy
            CheckMode.SAFE =
          (Except.ok (Snark.new
              (compile params (B.getVk pk) (instances.map List.length))
              instances pf),
           [Stage.mockCheck, Stage.prove, Stage.selfVerify])) := by
  constructor
  · intro e hv
    simp [create_proof_circuit, h1, h2, h3, verify_proof_circuit, Snark.new, hv]
  · intro out hv
    simp [create_proof_circuit, h1, h2, h3, verify_proof_circuit, Snark.new, hv]

/-- A concrete backend whose proving call fails with library error 7. -/
def failProveBackend :
    Halo2Backend Unit Nat Unit Unit Unit Unit Unit Nat Nat Unit Unit :=
  ⟨fun _ => 0, fun _ => (), fun _ => (),
   fun _ _ _ => Except.ok (), fun _ => Except.ok (),
   fun _ _ _ _ => Except.error 7, fun _ _ _ _ _ => Except.ok ()⟩

/-- A concrete backend whose proving call succeeds and whose subsequent
verification fails with the same library error 7. -/
def failSelfVerifyBackend :
    Halo2Backend Unit Nat Unit Unit Unit Unit Unit Nat Nat Unit Unit :=
  ⟨fun _ => 0, fun _ => (), fun _ => (),
   fun _ _ _ => Except.ok (), fun _ => Except.ok (),
   fun _ _ _ _ => Except.ok [], fun _ _ _ _ _ => Except.error 7⟩

/-- C6 counterexample: one SAFE run fails at the proving stage, another at
the self-verification stage, yet the surfaced errors are the very same value
— the two failures are not surfaced as distinct error kinds; only the stage
trace (invisible in the returned error) distinguishes them. -/
theorem self_verify_error_not_distinct :
    (create_proof_circuit failProveBackend () [] () () () CheckMode.SAFE).2 =
        [Stage.mockCheck, Stage.prove] ∧
    (create_proof_circuit failSelfVerifyBackend () [] () () ()
        CheckMode.SAFE).2 =
      [Stage.mockCheck, Stage.prove, Stage.selfVerify] ∧
    (create_proof_circuit failProveBackend () [] () () () CheckMode.SAFE).1 =
        Except.error (ProofError.lib 7) ∧
    (create_proof_circuit failSelfVerifyBackend () [] () () ()
        CheckMode.SAFE).1 =
      Except.error (ProofError.lib 7) :=
  ⟨rfl, rfl, rfl, rfl⟩

/-- Witness for create_proof_circuit_safe_self_verifies at a concrete
backend. -/
theorem create_proof_circuit_safe_self_verifies_witness :
    failSelfVerifyBackend.mockVerify () = Except.ok () ∧
    failSelfVerifyBackend.createProofBytes () () () [] = Except.ok [] ∧
    create_proof_circuit failSelfVerifyBackend () [] () () () CheckMode.SAFE =
      (Except.error (ProofError.lib 7),
       [Stage.mockCheck, Stage.prove, Stage.selfVerify]) :=
  ⟨rfl, rfl,
    (create_proof_circuit_safe_self_verifies failSelfVerifyBackend () [] () ()
        () () [] rfl rfl rfl).1 7 rfl⟩

/-- C8: writing a verifying or proving key flushes the buffered writer before
returning success (the buffer is empty and the file holds the full encoding),
and loading the written file returns the original key — so verification and
proving with the reloaded key behave identically to the in-memory key.  The
raw-byte key codec is the external halo2 read/write pair, modelled from the
spec as an encoder/decoder for which decoding inverts encoding. -/
theorem key_persistence_roundtrip {VkT PkT : Type}
    (encV : VkT → List Nat) (decV : List Nat → Except Unit VkT)
    (encP : PkT → List Nat) (decP : List Nat → Except Unit PkT)
    (hV : ∀ k, decV (encV k) = Except.ok k)
    (hP : ∀ k, decP (encP k) = Except.ok k)
    (vk : VkT) (pk : PkT) :
    (save_vk encV vk).buffer = [] ∧
    (save_vk encV vk).file = encV vk ∧
    load_vk decV (save_vk encV vk).file = Except.ok vk ∧
    (save_pk encP pk).buffer = [] ∧
    (save_pk encP pk).file = encP pk ∧
    load_pk decP (save_pk encP pk).file = Except.ok pk := by
  refine ⟨rfl, by simp [save_vk, BufWriter.new, BufWriter.writeAll,
      BufWriter.flush], ?_, rfl, by simp [save_pk, BufWriter.new,
      BufWriter.writeAll, BufWriter.flush], ?_⟩
  · simp [load_vk, save_vk, BufWriter.new, BufWriter.writeAll, BufWriter.flush,
      hV]
  · simp [load_pk, save_pk, BufWriter.new, BufWriter.writeAll, BufWriter.flush,
      hP]

/-- Witness for key_persistence_roundtrip with a concrete injective
single-byte codec. -/
theorem key_persistence_roundtrip_witness :
    (save_vk (fun k : Nat => [k]) 3).buffer = [] ∧
    load_vk (fun l => match l with
        | [k2] => Except.ok k2
        | _ => Except.error ())
      (save_vk (fun k : Nat => [k]) 3).file = Except.ok 3 :=
  ⟨(key_persistence_roundtrip (fun k : Nat => [k])
      (fun l => match l with
        | [k2] => Except.ok k2
        | _ => Except.error ())
      (fun k : Nat => [k])
      (fun l => match l with
        | [k2] => Except.ok k2
        | _ => Except.error ())
      (fun _ => rfl) (fun _ => rfl) 3 4).1,
    (key_persistence_roundtrip (fun k : Nat => [k])
      (fun l => match l with
        | [k2] => Except.ok k2
        | _ => Except.error ())
      (fun k : Nat => [k])
      (fun l => match l with
        | [k2] => Except.ok k2
        | _ => Except.error ())
      (fun _ => rfl) (fun _ => rfl) 3 4).2.2.1⟩

end Ezkl
